import Mathlib

/-!
Verification of the Acquisight repository's outbound USAspending API client
and of the Express request handlers, against its natural-language
specification.  All definitions are shallow embeddings of the JavaScript
source: `usaspending-client` (src/unnamed/part_000) and `server.js`.
-/

set_option maxHeartbeats 1000000

namespace Acquisight

/-! ## JavaScript string primitives

Small helpers mirroring JavaScript semantics: truthiness of strings
(`s || t` falls through on the empty string), `String.prototype.trim`,
and the whitespace class of `trim` / regex `\s`. -/

/-- JavaScript `a || b` for strings: the empty string is falsy. -/
def jsOr (a b : String) : String := if a = "" then b else a

/-- The JavaScript whitespace class (regex `\s`, also used by `trim`):
ASCII whitespace, NBSP, BOM and the Unicode space separators. -/
def isJsWhitespace (c : Char) : Bool :=
  c = ' ' || c = '\t' || c = '\n' || c = '\r' ||
  c = Char.ofNat 0x0b || c = Char.ofNat 0x0c ||
  c = Char.ofNat 0xa0 || c = Char.ofNat 0x1680 ||
  (Char.ofNat 0x2000 ≤ c && c ≤ Char.ofNat 0x200a) ||
  c = Char.ofNat 0x2028 || c = Char.ofNat 0x2029 ||
  c = Char.ofNat 0x202f || c = Char.ofNat 0x205f ||
  c = Char.ofNat 0x3000 || c = Char.ofNat 0xfeff

/-- `String.prototype.trim` on a character list: drop JS whitespace from
both ends. -/
def trimChars (l : List Char) : List Char :=
  ((l.dropWhile isJsWhitespace).reverse.dropWhile isJsWhitespace).reverse

/-- `String.prototype.trim`. -/
def jsTrim (s : String) : String := ⟨trimChars s.data⟩

/-! ## `_makeRequest`: the retry loop of `USASpendingClient`

The outcome of one transport attempt, as seen by the `try` block of
`_makeRequest`:
* `success (some body)` — the HTTP library resolved with a response body;
* `success none` — the HTTP library resolved but the response had no
  body (`!response.data`), which the code turns into a thrown
  `Error('Invalid response from API')`;
* `httpError status detail message` — the HTTP library rejected with an
  error carrying a response (`error.response.status`, optional
  `error.response.data.detail`) and a `message`;
* `networkError message` — the HTTP library rejected with no response
  attached (network failure, timeout). -/
inductive AttemptOutcome (α : Type) where
  | success (body : Option α)
  | httpError (status : Nat) (detail : Option String) (message : String)
  | networkError (message : String)
deriving DecidableEq

/-- The error message the catch block extracts:
`error.response?.data?.detail || error.message || 'Unknown error'`.
For an empty-body success the thrown error's message is
`'Invalid response from API'` and it carries no response. -/
def errMsgOf {α : Type} : AttemptOutcome α → String
  | .success _ => "Invalid response from API"
  | .httpError _ d m => jsOr (d.getD "") (jsOr m "Unknown error")
  | .networkError m => jsOr m "Unknown error"

/-- How one attempt is classified by the body of the retry loop:
succeed, fail terminally (a 4xx response: `error.response.status` in
`[400, 500)`), or fail retryably with an extracted error message. -/
inductive StepClass (α : Type) where
  | ok (body : α)
  | terminal (status : Nat) (message : String)
  | retry (message : String)
deriving DecidableEq

/-- Classification of one attempt, following the `try`/`catch` of
`_makeRequest`: a body-carrying success returns; an empty-body success
throws a plain `Error` (no `response` field, hence retryable); an error
with a 4xx response status is terminal; everything else is retryable. -/
def classify {α : Type} : AttemptOutcome α → StepClass α
  | .success (some b) => .ok b
  | .success none => .retry "Invalid response from API"
  | .httpError s d m =>
      if 400 ≤ s ∧ s < 500 then .terminal s (jsOr (d.getD "") (jsOr m "Unknown error"))
      else .retry (jsOr (d.getD "") (jsOr m "Unknown error"))
  | .networkError m => .retry (jsOr m "Unknown error")

/-- `true` exactly when the attempt fails and the catch block decides to
retry it (no 4xx response attached). -/
def isRetryB {α : Type} : AttemptOutcome α → Bool
  | .success (some _) => false
  | .success none => true
  | .httpError s _ _ => decide (s < 400) || decide (500 ≤ s)
  | .networkError _ => true

/-- Result of `_makeRequest`: the resolved body, or the message of the
thrown `Error`. -/
inductive ReqResult (α : Type) where
  | ok (body : α)
  | error (message : String)
deriving DecidableEq

/-- The retry loop of `_makeRequest`, from attempt index `attempt` up to
`retryAttempts` exclusive.  `outcomes k` is what the transport does on
the `k`-th (0-indexed) attempt.  Returns the result together with the
list of backoff delays (in ms) slept, in order.  Mirrors the source:
a 4xx error throws `API client error (status): msg` at once; the last
attempt's retryable failure throws
`API request failed after N attempts: msg`; otherwise the loop sleeps
`2^attempt * 1000` ms and continues.  If the loop never runs
(`retryAttempts = 0`) the trailing `throw lastError || Error('API
request failed')` fires with no recorded error. -/
def makeRequestAux {α : Type} (retryAttempts : Nat) (outcomes : Nat → AttemptOutcome α)
    (attempt : Nat) : ReqResult α × List Nat :=
  if _h : attempt < retryAttempts then
    match classify (outcomes attempt) with
    | .ok b => (.ok b, [])
    | .terminal s msg => (.error ("API client error (" ++ toString s ++ "): " ++ msg), [])
    | .retry msg =>
        if attempt = retryAttempts - 1 then
          (.error ("API request failed after " ++ toString retryAttempts ++ " attempts: " ++ msg), [])
        else
          let r := makeRequestAux retryAttempts outcomes (attempt + 1)
          (r.1, 2 ^ attempt * 1000 :: r.2)
  else
    (.error "API request failed", [])
termination_by retryAttempts - attempt
decreasing_by omega

/-- `_makeRequest` with attempt budget `retryAttempts` against a
transport behaving as `outcomes`. -/
def makeRequest {α : Type} (retryAttempts : Nat) (outcomes : Nat → AttemptOutcome α) :
    ReqResult α × List Nat :=
  makeRequestAux retryAttempts outcomes 0

/-- The backoff delay schedule of the first `k` retried attempts:
`2^0*1000, 2^1*1000, …, 2^(k-1)*1000` ms. -/
def backoffs (k : Nat) : List Nat := (List.range k).map (fun i => 2 ^ i * 1000)

/-! ## `encodeURIComponent` and the two award-detail endpoints

`getAwardDetails` builds its path with
``awards/${encodeURIComponent(awardId)}/`` while `getContractDetails`
interpolates the raw id: ``awards/${awardId}/``. -/

/-- The characters `encodeURIComponent` leaves unescaped:
`A–Z a–z 0–9 - _ . ! ~ * ' ( )`. -/
def isUnescapedURIChar (c : Char) : Bool :=
  c.isAlpha || c.isDigit ||
  c = '-' || c = '_' || c = '.' || c = '!' || c = '~' || c = '*' ||
  c = Char.ofNat 39 || c = '(' || c = ')'

/-- UTF-8 bytes of a Unicode scalar value. -/
def utf8Bytes (v : Nat) : List Nat :=
  if v < 0x80 then [v]
  else if v < 0x800 then [0xc0 + v / 64, 0x80 + v % 64]
  else if v < 0x10000 then [0xe0 + v / 4096, 0x80 + v / 64 % 64, 0x80 + v % 64]
  else [0xf0 + v / 262144, 0x80 + v / 4096 % 64, 0x80 + v / 64 % 64, 0x80 + v % 64]

/-- Upper-case hexadecimal digit. -/
def hexDigit (n : Nat) : Char :=
  if n < 10 then Char.ofNat (48 + n) else Char.ofNat (55 + n)

/-- Percent-escape of one byte, e.g. `%2F`. -/
def percentByte (b : Nat) : List Char := ['%', hexDigit (b / 16), hexDigit (b % 16)]

/-- `encodeURIComponent` on one character: unescaped characters pass
through; every other character becomes the percent-escapes of its UTF-8
bytes. -/
def encodeChar (c : Char) : List Char :=
  if isUnescapedURIChar c then [c] else ((utf8Bytes c.toNat).map percentByte).flatten

/-- `encodeURIComponent` on a character list. -/
def encodeChars (l : List Char) : List Char := (l.map encodeChar).flatten

/-- JavaScript `encodeURIComponent`. -/
def encodeURIComponent (s : String) : String := ⟨encodeChars s.data⟩

/-- The path requested by `getAwardDetails(awardId)`:
``awards/${encodeURIComponent(awardId)}/``. -/
def getAwardDetailsEndpoint (awardId : String) : String :=
  "awards/" ++ encodeURIComponent awardId ++ "/"

/-- The path requested by `getContractDetails(awardId)`:
``awards/${awardId}/`` (no encoding). -/
def getContractDetailsEndpoint (awardId : String) : String :=
  "awards/" ++ awardId ++ "/"

/-- The RFC 3986 reserved characters: gen-delims `: / ? # [ ] @` and
sub-delims `! $ & ' ( ) * + , ; =`. -/
def isRfc3986Reserved (c : Char) : Bool :=
  c = ':' || c = '/' || c = '?' || c = '#' || c = '[' || c = ']' || c = '@' ||
  c = '!' || c = '$' || c = '&' || c = Char.ofNat 39 || c = '(' || c = ')' ||
  c = '*' || c = '+' || c = ',' || c = ';' || c = '='

/-- `getAwardDetails(awardId)` as issued by the client: the endpoint it
requests together with the `_makeRequest` retry behaviour. -/
def getAwardDetailsRequest {α : Type} (retryAttempts : Nat) (awardId : String)
    (outcomes : Nat → AttemptOutcome α) : String × (ReqResult α × List Nat) :=
  (getAwardDetailsEndpoint awardId, makeRequest retryAttempts outcomes)

/-! ## `searchContracts`: filter construction and payload -/

/-- One `time_period` entry: the (possibly absent) `startDate` /
`endDate` options are written through verbatim. -/
structure TimePeriod where
  start_date : Option String
  end_date : Option String
deriving DecidableEq

/-- An award-amount bound object such as `{ lower_bound: minAmount }`.
Any such object is truthy in JavaScript. -/
structure AwardAmountBound where
  lower_bound : Option Int := none
  upper_bound : Option Int := none
deriving DecidableEq

/-- An `{ name: agency }` entry of the `agencies` filter. -/
structure AgencyFilter where
  name : String
deriving DecidableEq

/-- The options object accepted by `searchContracts`, with the source's
defaults.  A field holds `none` when the caller did not supply the
option (JavaScript `undefined` / the `= null` destructuring default). -/
structure SearchOptions where
  startDate : Option String := none
  endDate : Option String := none
  keywords : Option String := none
  awardAmounts : Option AwardAmountBound := none
  recipientSearchText : Option String := none
  agencies : Option (List String) := none
  naicsCodes : Option (List String) := none
  pscCodes : Option (List String) := none
  limit : Int := 100
  page : Int := 1
  sort : String := "Award Amount"
  order : String := "desc"
deriving DecidableEq

/-- The filter object built by `searchContracts`.  An `Option` field is
`none` exactly when the corresponding key is absent from the object. -/
structure SearchFilters where
  award_type_codes : List String
  time_period : List TimePeriod
  keywords : Option (List String) := none
  award_amounts : Option (List AwardAmountBound) := none
  recipient_search_text : Option (List String) := none
  agencies : Option (List AgencyFilter) := none
  naics_codes : Option (List String) := none
  psc_codes : Option (List String) := none
deriving DecidableEq

/-- Truthiness of an optional JavaScript string: present and non-empty. -/
def truthyOptStr (o : Option String) : Bool :=
  match o with
  | some s => s ≠ ""
  | none => false

/-- `this.contractTypes` from the `USASpendingClient` constructor. -/
def contractTypes : List String := ["A", "B", "C", "D"]

/-- The filter construction of `searchContracts` (lines 107–139 of the
client): `award_type_codes` and `time_period` are always set; each
optional filter key is added only when its option is truthy
(`if (keywords) …`), the list-valued ones only when non-empty
(`if (agencies && agencies.length > 0) …`). -/
def buildFilters (o : SearchOptions) : SearchFilters where
  award_type_codes := contractTypes
  time_period := [⟨o.startDate, o.endDate⟩]
  keywords := match o.keywords with
    | some k => if k ≠ "" then some [k] else none
    | none => none
  award_amounts := match o.awardAmounts with
    | some a => some [a]
    | none => none
  recipient_search_text := match o.recipientSearchText with
    | some r => if r ≠ "" then some [r] else none
    | none => none
  agencies := match o.agencies with
    | some l => if l.length > 0 then some (l.map fun a => ⟨a⟩) else none
    | none => none
  naics_codes := match o.naicsCodes with
    | some l => if l.length > 0 then some l else none
    | none => none
  psc_codes := match o.pscCodes with
    | some l => if l.length > 0 then some l else none
    | none => none

/-- The fixed field projection list of the search payload. -/
def searchFields : List String :=
  ["Award ID", "Recipient Name", "Start Date", "End Date", "Award Amount",
   "Total Obligation", "Potential Award Amount", "Total Outlays", "Description",
   "Award Type", "Awarding Agency", "Awarding Sub Agency", "Contract Award Type",
   "prime_award_recipient_id", "generated_unique_award_id",
   "Period of Performance Start Date", "Period of Performance Current End Date",
   "Period of Performance Potential End Date", "funding_agency_name",
   "awarding_sub_agency_name", "Treasury Account Symbol", "Program Activity",
   "Object Class", "Number of Offers Received", "Extent Competed",
   "Type of Contract Pricing", "Solicitation Procedures",
   "Fair Opportunity Limited Sources", "Contracting Officer Name",
   "awarding_office_name", "funding_office_name", "Type of Set Aside"]

/-- The payload `searchContracts` POSTs to `search/spending_by_award/`. -/
structure SearchPayload where
  filters : SearchFilters
  fields : List String
  limit : Int
  page : Int
  sort : String
  order : String
deriving DecidableEq

/-- The payload construction of `searchContracts` (lines 141–181):
filters as built above, the fixed field list, and
`limit: Math.min(limit, 100)`. -/
def searchPayload (o : SearchOptions) : SearchPayload where
  filters := buildFilters o
  fields := searchFields
  limit := min o.limit 100
  page := o.page
  sort := o.sort
  order := o.order

/-! ## `server.js`: the `POST /api/search` handler

`getDefaultDates` takes `new Date()` twice (same calendar day), calls
`startDate.setFullYear(startDate.getFullYear() - 10)`, and formats both
as `YYYY-MM-DD` via `toISOString().split('T')[0]`.  We model the current
UTC calendar day as a `CalDate`; `setFullYear` keeps the month/day
fields and lets the `Date` normalise an overflow (Feb 29 of a leap year
becomes Mar 1 when the target year is not a leap year). -/

/-- A calendar date (proleptic Gregorian), month `1–12`. -/
structure CalDate where
  year : Int
  month : Nat
  day : Nat
deriving DecidableEq

/-- Gregorian leap year. -/
def isLeapYear (y : Int) : Bool :=
  (y % 4 = 0 && y % 100 ≠ 0) || y % 400 = 0

/-- Days in a month of a given year. -/
def daysInMonth (y : Int) (m : Nat) : Nat :=
  if m = 2 then (if isLeapYear y then 29 else 28)
  else if m = 4 || m = 6 || m = 9 || m = 11 then 30
  else 31

/-- The date is a real calendar date. -/
def validDate (d : CalDate) : Bool :=
  1 ≤ d.month && d.month ≤ 12 && 1 ≤ d.day && d.day ≤ daysInMonth d.year d.month

/-- JavaScript `date.setFullYear(date.getFullYear() - 10)` on a valid
date: the month/day fields are kept and the `Date` normalises an
overflowing day into the next month (Feb 29 → Mar 1 when year−10 is not
a leap year; no other month length depends on the year). -/
def setFullYearMinus10 (d : CalDate) : CalDate :=
  let y := d.year - 10
  if d.day ≤ daysInMonth y d.month then ⟨y, d.month, d.day⟩
  else ⟨y, d.month + 1, d.day - daysInMonth y d.month⟩

/-- `getDefaultDates()` of `server.js` on current day `today`:
`{ start: today shifted back 10 years, end: today }`. -/
def getDefaultDates (today : CalDate) : CalDate × CalDate :=
  (setFullYearMinus10 today, today)

/-- Zero-padded decimal rendering of width 2. -/
def pad2 (n : Nat) : String :=
  if n < 10 then "0" ++ toString n else toString n

/-- `toISOString().split('T')[0]`: the `YYYY-MM-DD` rendering. -/
def formatISO (d : CalDate) : String :=
  toString d.year ++ "-" ++ pad2 d.month ++ "-" ++ pad2 d.day

/-- One character of the award-id pattern `[A-Z0-9]` with the `i` flag:
an ASCII letter or digit. -/
def isAwardIdChar (c : Char) : Bool := c.isAlpha || c.isDigit

/-- `/^[A-Z0-9]{10,}$/i.test(keywords.trim())`: after trimming, at
least 10 characters, all ASCII alphanumeric. -/
def looksLikeAwardID (keywords : String) : Bool :=
  (trimChars keywords.data).length ≥ 10 && (trimChars keywords.data).all isAwardIdChar

/-- The `searchParams` object the `POST /api/search` handler passes to
`searchContracts` for non-empty `keywords`: always
`{ keywords, limit: 100 }`; a date window from `getDefaultDates()` is
added only when the input does not look like an award id. -/
def searchHandlerParams (keywords : String) (today : CalDate) : SearchOptions :=
  let base : SearchOptions := { keywords := some keywords, limit := 100 }
  if looksLikeAwardID keywords then base
  else
    { base with
      startDate := some (formatISO (getDefaultDates today).1)
      endDate := some (formatISO (getDefaultDates today).2) }

/-! ## `server.js`: the markdown-to-Word table scanner

The `POST /api/generate-word-doc` handler walks the content lines with
an `inTable` flag and a `tableRows` accumulator.  Lines are modelled as
character lists.  Per source line 663–674: a trimmed line that starts
and ends with `|` is a table row; rows matching `/^\|[\s:-]+\|$/` are
skipped as separators; other rows are split on `|`, blank cells dropped,
remaining cells trimmed.  A non-empty non-table line while `inTable`
emits the accumulated rows as one table (line 676–699); an empty line or
a bold-only header line leaves the table state untouched (lines 644–661);
a trailing table is flushed after the loop (lines 709–724). -/

/-- Split a character list on `|`, like JavaScript `split('|')`. -/
def splitPipe : List Char → List (List Char)
  | [] => [[]]
  | c :: rest =>
      if c = '|' then [] :: splitPipe rest
      else
        match splitPipe rest with
        | f :: fs => (c :: f) :: fs
        | [] => [[c]]

/-- `trimmed.split('|').filter(c => c.trim()).map(c => c.trim())`:
the emitted cells of one table row. -/
def splitCells (t : List Char) : List (List Char) :=
  ((splitPipe t).filter (fun c => trimChars c ≠ [])).map trimChars

/-- A character the separator regex's class `[\s:-]` accepts. -/
def isSepChar (c : Char) : Bool := isJsWhitespace c || c = ':' || c = '-'

/-- `trimmed.match(/^\|[\s:-]+\|$/)`: a pipe, one or more
whitespace/colon/dash characters (no interior pipe!), a pipe. -/
def isSepRow : List Char → Bool
  | '|' :: rest =>
      rest ≠ [] && rest.getLast? = some '|' && rest.dropLast ≠ [] &&
      rest.dropLast.all isSepChar
  | _ => false

/-- `trimmed.startsWith('|') && trimmed.endsWith('|')` on a non-empty
trimmed line. -/
def isTableLine (t : List Char) : Bool :=
  t ≠ [] && t.head? = some '|' && t.getLast? = some '|'

/-- `trimmed.startsWith('**') && trimmed.endsWith('**') &&
!trimmed.includes('|')`: the bold-only header test, checked before the
table-row test. -/
def isHeaderLine (t : List Char) : Bool :=
  match t with
  | '*' :: '*' :: _ => (t.reverse.take 2 = ['*', '*']) && !(t.contains '|')
  | _ => false

/-- The table-emitting part of the line scanner: walks the lines with
the `inTable` flag and `tableRows` accumulator and returns the emitted
tables in order (each a list of rows, each row a list of cells). -/
def scanTables : List (List Char) → List (List (List Char)) → Bool →
    List (List (List (List Char)))
  | [], acc, inTable => if inTable && acc ≠ [] then [acc] else []
  | l :: rest, acc, inTable =>
      let t := trimChars l
      if t = [] then scanTables rest acc inTable
      else if isHeaderLine t then scanTables rest acc inTable
      else if isTableLine t then
        let acc0 := if inTable then acc else []
        let acc1 := if isSepRow t then acc0 else acc0 ++ [splitCells t]
        scanTables rest acc1 true
      else if inTable then
        (if acc ≠ [] then [acc] else []) ++ scanTables rest [] false
      else scanTables rest acc inTable

/-- The tables emitted by the Word-export handler for the given content
lines. -/
def wordTables (lines : List (List Char)) : List (List (List (List Char))) :=
  scanTables lines [] false

/-! ## `server.js`: Word-document handler validation and filename

`POST /api/generate-word-doc` validates `if (!content || !title)` → 400,
then builds the download filename with
`companyName.replace(/[^a-z0-9]/gi, '-')` — a `TypeError` when
`companyName` is absent, caught by the handler's `catch` → 500. -/

/-- `companyName.replace(/[^a-z0-9]/gi, '-')`: ASCII alphanumerics are
kept, every other character becomes `-`. -/
def sanitizeFilenamePart (s : String) : String :=
  ⟨s.data.map (fun c => if c.isAlpha || c.isDigit then c else '-')⟩

/-- Building the `Content-Disposition` filename: dereferences
`companyName`, so an absent value raises (modelled as `Except.error`,
the JavaScript `TypeError` on `undefined.replace`). -/
def buildWordDocFilename (companyName : Option String) (now : Nat) : Except String String :=
  match companyName with
  | none => .error "TypeError: cannot read replace of undefined"
  | some c => .ok (sanitizeFilenamePart c ++ "-analysis-" ++ toString now ++ ".docx")

/-- The HTTP status returned by the `POST /api/generate-word-doc`
handler (document assembly itself assumed to succeed): 400 from the
validation when `content` or `title` is falsy, 500 from the `catch`
when the filename step throws, 200 otherwise. -/
def wordDocHandlerStatus (content title companyName : Option String) (now : Nat) : Nat :=
  if !truthyOptStr content || !truthyOptStr title then 400
  else
    match buildWordDocFilename companyName now with
    | .error _ => 500
    | .ok _ => 200

/-! ## `server.js`: the cover-page PDF handlers

`POST /api/generate-usaspending-pdf` and `POST /api/generate-fpds-pdf`
share the same control flow (lines 756–864 and 869–978): validate `url`;
`generatePDFFromURL` writes the temporary content PDF and returns its
path; then `readFileSync`, `PDFDocument.load`, `copyPages` (cover),
`copyPages` (content), `save`; then — only here — `fs.unlinkSync` on
the temporary file; the `catch` block returns 500 and performs no
unlink.  Each fallible step is a point of the trace; `failAt` selects
the first step that throws (`none` = all succeed). -/

/-- The fallible steps of the cover/merge pipeline, in source order. -/
inductive MergeStep where
  | generateContent
  | readContentFile
  | loadContentPdf
  | copyCoverPage
  | copyContentPages
  | saveMergedPdf
deriving DecidableEq

/-- Whether one step succeeds under the failure scenario `failAt`. -/
def stepOk (failAt : Option MergeStep) (s : MergeStep) : Bool :=
  failAt ≠ some s

/-- Run of a cover-page PDF handler after `url` validation, returning
the HTTP status and whether the temporary content PDF still exists on
disk when the handler finishes.  Follows the source order; the only
`unlinkSync` sits between `save` and the response. -/
def coverMergeRun (failAt : Option MergeStep) : Nat × Bool :=
  if !stepOk failAt .generateContent then
    (500, false)
  else
    -- the temporary content PDF now exists on disk
    if !stepOk failAt .readContentFile then (500, true)
    else if !stepOk failAt .loadContentPdf then (500, true)
    else if !stepOk failAt .copyCoverPage then (500, true)
    else if !stepOk failAt .copyContentPages then (500, true)
    else if !stepOk failAt .saveMergedPdf then (500, true)
    else
      -- fs.unlinkSync(contentPdfPath); res.send(...)
      (200, false)

/-- A cover-page PDF handler (`usaspending` or `fpds` — identical
control flow): 400 when `url` is falsy and no temporary file is ever
created, otherwise the cover/merge run. -/
def coverPdfHandler (url : Option String) (failAt : Option MergeStep) : Nat × Bool :=
  if !truthyOptStr url then (400, false)
  else coverMergeRun failAt

/-! ## Spec-side notions used to state (and refute) the claims

These definitions follow the words of the specification, to be compared
with the definitions embedded from the source. -/

/-- Truthiness of an optional JavaScript array: present and non-empty. -/
def truthyOptList {β : Type} (o : Option (List β)) : Bool :=
  match o with
  | some l => !l.isEmpty
  | none => false

/-- Spec reading of "exactly 10 years before": the same calendar
month/day with the year decremented by 10. -/
def minus10Years (d : CalDate) : CalDate := ⟨d.year - 10, d.month, d.day⟩

/-- The cells of a markdown table row: the fields strictly between the
outer pipes. -/
def interiorCells (t : List Char) : List (List Char) :=
  ((splitPipe t).drop 1).dropLast

/-- Spec reading of a markdown separator row ("rows matching only
dashes/colons/spaces between pipes"): a table row all of whose interior
cells consist only of dash/colon/whitespace characters. -/
def isSpecSeparatorRow (t : List Char) : Bool :=
  isTableLine t && !(interiorCells t).isEmpty &&
    (interiorCells t).all (fun c => c.all isSepChar)

/-! ## Lemmas about the retry loop -/

/-- A retryable failure is classified `retry` with the extracted
message. -/
lemma classify_of_isRetryB {α : Type} (o : AttemptOutcome α) (h : isRetryB o = true) :
    classify o = .retry (errMsgOf o) := by
  cases o with
  | success b =>
      cases b with
      | none => rfl
      | some v => simp [isRetryB] at h
  | httpError s d m =>
      simp only [isRetryB, Bool.or_eq_true, decide_eq_true_eq] at h
      have : ¬ (400 ≤ s ∧ s < 500) := by omega
      simp [classify, errMsgOf, this]
  | networkError m => rfl

/-- Unfolding: a successful attempt returns its body at once. -/
lemma makeRequestAux_ok {α : Type} (n : Nat) (outs : Nat → AttemptOutcome α) (a : Nat)
    (b : α) (ha : a < n) (hc : classify (outs a) = .ok b) :
    makeRequestAux n outs a = (.ok b, []) := by
  rw [makeRequestAux]
  simp [ha, hc]

/-- Unfolding: a 4xx-classified attempt throws the client error at
once, with no backoff recorded. -/
lemma makeRequestAux_terminal {α : Type} (n : Nat) (outs : Nat → AttemptOutcome α) (a : Nat)
    (s : Nat) (msg : String) (ha : a < n) (hc : classify (outs a) = .terminal s msg) :
    makeRequestAux n outs a =
      (.error ("API client error (" ++ toString s ++ "): " ++ msg), []) := by
  rw [makeRequestAux]
  simp [ha, hc]

/-- Unfolding: a retryable failure on the last attempt throws the
aggregate error. -/
lemma makeRequestAux_last {α : Type} (n : Nat) (outs : Nat → AttemptOutcome α) (a : Nat)
    (msg : String) (ha : a < n) (hlast : a = n - 1) (hc : classify (outs a) = .retry msg) :
    makeRequestAux n outs a =
      (.error ("API request failed after " ++ toString n ++ " attempts: " ++ msg), []) := by
  subst hlast
  rw [makeRequestAux]
  simp [ha, hc]

/-- Unfolding: a retryable failure before the last attempt sleeps
`2^a * 1000` ms and continues with the next attempt. -/
lemma makeRequestAux_retry_step {α : Type} (n : Nat) (outs : Nat → AttemptOutcome α) (a : Nat)
    (msg : String) (ha : a < n) (hnl : a ≠ n - 1) (hc : classify (outs a) = .retry msg) :
    makeRequestAux n outs a =
      ((makeRequestAux n outs (a + 1)).1,
        2 ^ a * 1000 :: (makeRequestAux n outs (a + 1)).2) := by
  rw [makeRequestAux]
  simp [ha, hc, hnl]

/-- Skipping a run of retryable failures: if attempts `a, …, a+k-1` all
fail retryably and `a+k < n`, the loop reaches attempt `a+k` having
slept the backoff of each skipped attempt. -/
lemma makeRequestAux_skip {α : Type} (n : Nat) (outs : Nat → AttemptOutcome α) :
    ∀ (k a : Nat), (∀ j, a ≤ j → j < a + k → isRetryB (outs j) = true) → a + k < n →
    makeRequestAux n outs a =
      ((makeRequestAux n outs (a + k)).1,
        ((List.range k).map (fun i => 2 ^ (a + i) * 1000)) ++ (makeRequestAux n outs (a + k)).2) := by
  intro k
  induction k with
  | zero => intro a _ _; simp
  | succ k ih =>
      intro a hretry hlt
      have ha : a < n := by omega
      have hnl : a ≠ n - 1 := by omega
      have hra : isRetryB (outs a) = true := hretry a (Nat.le_refl a) (by omega)
      have hc : classify (outs a) = .retry (errMsgOf (outs a)) := classify_of_isRetryB _ hra
      have step := makeRequestAux_retry_step n outs a (errMsgOf (outs a)) ha hnl hc
      have ih1 := ih (a + 1) (fun j h1 h2 => hretry j (by omega) (by omega)) (by omega)
      have hshift : a + 1 + k = a + (k + 1) := by omega
      rw [step, ih1, hshift]
      have hmap : (List.range (k + 1)).map (fun i => 2 ^ (a + i) * 1000) =
          2 ^ a * 1000 :: (List.range k).map (fun i => 2 ^ (a + 1 + i) * 1000) := by
        rw [List.range_succ_eq_map, List.map_cons, List.map_map]
        refine congrArg₂ _ (by simp) (List.map_congr_left ?_)
        intro i _
        have : a + Nat.succ i = a + 1 + i := by omega
        simp [Function.comp, this]
      simp [hmap]

/-- After a run of `k` retryable failures, a 4xx error on attempt `k`
fails the whole call at once with the rendered client-error message and
exactly the `k` earlier backoff delays. -/
lemma makeRequest_clientError {α : Type} (n k s : Nat) (outs : Nat → AttemptOutcome α)
    (d : Option String) (m : String)
    (hretry : ∀ j, j < k → isRetryB (outs j) = true) (hk : k < n)
    (hout : outs k = .httpError s d m) (h4 : 400 ≤ s) (h5 : s < 500) :
    makeRequest n outs =
      (.error ("API client error (" ++ toString s ++ "): " ++
        jsOr (d.getD "") (jsOr m "Unknown error")), backoffs k) := by
  have hc : classify (outs k) = .terminal s (jsOr (d.getD "") (jsOr m "Unknown error")) := by
    rw [hout]; simp [classify, h4, h5]
  have hskip := makeRequestAux_skip n outs k 0
    (fun j _ hj => hretry j (by omega)) (by omega)
  have hterm := makeRequestAux_terminal n outs k s _ hk hc
  simp only [Nat.zero_add] at hskip
  rw [makeRequest, hskip, hterm]
  simp [backoffs]

/-- Exhausting the budget: if every attempt fails retryably, the call
fails with the aggregate message naming the attempt count and the last
attempt's extracted error message, after the `n-1` backoff delays. -/
lemma makeRequest_exhausted {α : Type} (n : Nat) (outs : Nat → AttemptOutcome α)
    (hn : 0 < n) (hretry : ∀ j, j < n → isRetryB (outs j) = true) :
    makeRequest n outs =
      (.error ("API request failed after " ++ toString n ++ " attempts: " ++
        errMsgOf (outs (n - 1))), backoffs (n - 1)) := by
  have hc : classify (outs (n - 1)) = .retry (errMsgOf (outs (n - 1))) :=
    classify_of_isRetryB _ (hretry (n - 1) (by omega))
  have hskip := makeRequestAux_skip n outs (n - 1) 0
    (fun j _ hj => hretry j (by omega)) (by omega)
  have hlast := makeRequestAux_last n outs (n - 1) _ (by omega) rfl hc
  simp only [Nat.zero_add] at hskip
  rw [makeRequest, hskip, hlast]
  simp [backoffs]

/-- Delay schedule: if attempts `0, …, k` all fail retryably and the
budget is not yet exhausted, the recorded delays start with
`2^0*1000, …, 2^k*1000`; in particular the sleep taken after attempt
`k` is exactly `2^k * 1000` ms. -/
lemma makeRequest_delays {α : Type} (n k : Nat) (outs : Nat → AttemptOutcome α)
    (hretry : ∀ j, j ≤ k → isRetryB (outs j) = true) (hk : k + 1 < n) :
    ∃ rest, (makeRequest n outs).2 = backoffs (k + 1) ++ rest := by
  have hskip := makeRequestAux_skip n outs (k + 1) 0
    (fun j _ hj => hretry j (by omega)) (by omega)
  simp only [Nat.zero_add] at hskip
  refine ⟨(makeRequestAux n outs (k + 1)).2, ?_⟩
  rw [makeRequest, hskip]
  simp [backoffs]

/-! ## Lemmas about `splitPipe` and the table scanner -/

lemma splitPipe_ne_nil : ∀ t : List Char, splitPipe t ≠ [] := by
  intro t
  cases t with
  | nil => simp [splitPipe]
  | cons c rest =>
      by_cases hc : c = '|'
      · simp [splitPipe, hc]
      · simp only [splitPipe, hc, if_false]
        cases h : splitPipe rest <;> simp

lemma splitPipe_append_pipe : ∀ t : List Char, splitPipe (t ++ ['|']) = splitPipe t ++ [[]] := by
  intro t
  induction t with
  | nil => rfl
  | cons c rest ih =>
      by_cases hc : c = '|'
      · simp [splitPipe, hc, ih]
      · simp only [List.cons_append, splitPipe, hc, if_false, ih]
        cases h : splitPipe rest with
        | nil => exact absurd h (splitPipe_ne_nil rest)
        | cons f fs => simp [ih, h]

/-- The trim of the empty cell is empty. -/
lemma trimChars_nil : trimChars [] = [] := rfl

/-- For a row starting and ending with a pipe, the emitted cells are
exactly the non-blank interior cells, trimmed; in particular their
number is the number of non-blank interior cells. -/
lemma splitCells_eq_interior (t : List Char) (h : isTableLine t = true) :
    splitCells t = ((interiorCells t).filter (fun c => trimChars c ≠ [])).map trimChars := by
  simp only [isTableLine, Bool.and_eq_true, decide_eq_true_eq, ne_eq] at h
  obtain ⟨⟨hne, hhead⟩, hlast⟩ := h
  cases t with
  | nil => simp at hne
  | cons c rest =>
      have hc : c = '|' := by simpa using hhead
      subst hc
      cases hr : rest with
      | nil => subst hr; rfl
      | cons r rs =>
          have hrne : rest ≠ [] := by rw [hr]; simp
          have hlast2 : rest.getLast hrne = '|' := by
            have : ('|' :: rest).getLast? = some (rest.getLast hrne) := by
              rw [List.getLast?_eq_getLast _ (by simp)]
              congr 1
              exact (List.getLast_cons hrne)
            rw [this] at hlast
            simpa using hlast
          have hsplit : rest = rest.dropLast ++ ['|'] := by
            conv_lhs => rw [← List.dropLast_append_getLast hrne]
            rw [hlast2]
          rw [← hr]
          have hsp : splitPipe ('|' :: rest) = [] :: (splitPipe rest.dropLast ++ [[]]) := by
            have h1 : splitPipe ('|' :: rest) = [] :: splitPipe rest := by simp [splitPipe]
            rw [h1]
            conv_lhs => rw [hsplit]
            rw [splitPipe_append_pipe]
          rw [splitCells, interiorCells, hsp]
          simp [trimChars_nil, List.filter_append]

/-- The scanner on a run of table lines accumulates into one table:
separator rows (in the code's sense) dropped, other rows split into
cells. -/
lemma scanTables_all_table (lines : List (List Char)) :
    ∀ acc : List (List (List Char)),
      (∀ l ∈ lines, isTableLine (trimChars l) = true) →
      scanTables lines acc true =
        (if acc ++ ((lines.map trimChars).filter (fun t => !isSepRow t)).map splitCells = []
         then []
         else [acc ++ ((lines.map trimChars).filter (fun t => !isSepRow t)).map splitCells]) := by
  induction lines with
  | nil =>
      intro acc _
      by_cases h : acc = [] <;> simp [scanTables, h]
  | cons l rest ih =>
      intro acc hall
      have ht : isTableLine (trimChars l) = true := hall l (by simp)
      have hrest : ∀ x ∈ rest, isTableLine (trimChars x) = true :=
        fun x hx => hall x (by simp [hx])
      have htne : trimChars l ≠ [] := by
        simp only [isTableLine, Bool.and_eq_true, decide_eq_true_eq, ne_eq] at ht
        exact ht.1.1
      have hthead : (trimChars l).head? = some '|' := by
        simp only [isTableLine, Bool.and_eq_true, decide_eq_true_eq] at ht
        exact ht.1.2
      have hnothdr : isHeaderLine (trimChars l) = false := by
        cases htl : trimChars l with
        | nil => exact absurd htl htne
        | cons c cs =>
            have : c = '|' := by rw [htl] at hthead; simpa using hthead
            subst this
            rfl
      rw [scanTables]
      simp only [htne, if_false, hnothdr, Bool.false_eq_true, if_true, ht, if_pos]
      by_cases hsep : isSepRow (trimChars l)
      · rw [if_pos hsep, ih acc hrest]
        simp [hsep]
      · rw [if_neg hsep, ih (acc ++ [splitCells (trimChars l)]) hrest]
        simp [hsep]

/-- The Word-export handler on content consisting solely of table lines
emits exactly one table (or none, when every row is a separator) whose
rows are the non-separator input rows, split into cells. -/
lemma wordTables_all_table (lines : List (List Char))
    (hall : ∀ l ∈ lines, isTableLine (trimChars l) = true) :
    wordTables lines =
      (if ((lines.map trimChars).filter (fun t => !isSepRow t)).map splitCells = []
       then []
       else [((lines.map trimChars).filter (fun t => !isSepRow t)).map splitCells]) := by
  cases lines with
  | nil => simp [wordTables, scanTables]
  | cons l rest =>
      have ht : isTableLine (trimChars l) = true := hall l (by simp)
      have hrest : ∀ x ∈ rest, isTableLine (trimChars x) = true :=
        fun x hx => hall x (by simp [hx])
      have htne : trimChars l ≠ [] := by
        simp only [isTableLine, Bool.and_eq_true, decide_eq_true_eq, ne_eq] at ht
        exact ht.1.1
      have hthead : (trimChars l).head? = some '|' := by
        simp only [isTableLine, Bool.and_eq_true, decide_eq_true_eq] at ht
        exact ht.1.2
      have hnothdr : isHeaderLine (trimChars l) = false := by
        cases htl : trimChars l with
        | nil => exact absurd htl htne
        | cons c cs =>
            have : c = '|' := by rw [htl] at hthead; simpa using hthead
            subst this
            rfl
      rw [wordTables, scanTables]
      simp only [htne, if_false, hnothdr, Bool.false_eq_true, if_true, ht, if_pos]
      by_cases hsep : isSepRow (trimChars l)
      · rw [if_pos hsep]
        rw [scanTables_all_table rest [] hrest]
        simp [hsep]
      · rw [if_neg hsep]
        rw [scanTables_all_table rest _ hrest]
        simp [hsep]

/-! ## Lemmas about `encodeURIComponent` -/

lemma utf8Bytes_ne_nil (v : Nat) : utf8Bytes v ≠ [] := by
  unfold utf8Bytes
  split_ifs <;> simp

lemma percent_flatten_length (bs : List Nat) :
    ((bs.map percentByte).flatten).length = 3 * bs.length := by
  induction bs with
  | nil => rfl
  | cons b rest ih => simp [percentByte, ih]; omega

lemma encodeChar_of_escaped_length (c : Char) (h : isUnescapedURIChar c = false) :
    3 ≤ (encodeChar c).length := by
  rw [encodeChar, if_neg (by simp [h]), percent_flatten_length]
  have := utf8Bytes_ne_nil c.toNat
  have : (utf8Bytes c.toNat).length ≠ 0 := by
    simpa [List.length_eq_zero] using this
  omega

lemma encodeChar_length_pos (c : Char) : 1 ≤ (encodeChar c).length := by
  by_cases h : isUnescapedURIChar c = true
  · simp [encodeChar, h]
  · have := encodeChar_of_escaped_length c (by simpa using h)
    omega

lemma encodeChars_length_ge (l : List Char) : l.length ≤ (encodeChars l).length := by
  induction l with
  | nil => simp [encodeChars]
  | cons c rest ih =>
      have := encodeChar_length_pos c
      simp only [encodeChars, List.map_cons, List.flatten_cons, List.length_append,
        List.length_cons]
      simp only [encodeChars] at ih
      omega

/-- `encodeURIComponent` fixes a character list exactly when every
character is in the unescaped set. -/
lemma encodeChars_eq_self_iff (l : List Char) :
    encodeChars l = l ↔ ∀ c ∈ l, encodeChar c = [c] := by
  constructor
  · induction l with
    | nil => intro _ c hc; simp at hc
    | cons c rest ih =>
        intro h d hd
        by_cases hu : isUnescapedURIChar c = true
        · have hcc : encodeChar c = [c] := by simp [encodeChar, hu]
          have hrest : encodeChars rest = rest := by
            have : encodeChar c ++ encodeChars rest = c :: rest := by
              simpa [encodeChars] using h
            rw [hcc] at this
            simpa using this
          rcases List.mem_cons.mp hd with hd | hd
          · subst hd; exact hcc
          · exact ih hrest d hd
        · exfalso
          have hlen : (encodeChars (c :: rest)).length = (c :: rest).length := by rw [h]
          have h3 := encodeChar_of_escaped_length c (by simpa using hu)
          have hge := encodeChars_length_ge rest
          simp only [encodeChars, List.map_cons, List.flatten_cons, List.length_append,
            List.length_cons] at hlen
          simp only [encodeChars] at hge
          omega
  · intro h
    induction l with
    | nil => rfl
    | cons c rest ih =>
        simp only [encodeChars, List.map_cons, List.flatten_cons]
        rw [h c (by simp)]
        have : encodeChars rest = rest := ih (fun d hd => h d (by simp [hd]))
        simp only [encodeChars] at this
        simp [this]

/-! ## Lemma about the ten-year date shift -/

/-- On a valid current date, `setFullYear(year - 10)` gives the same
month/day in the target year when that date exists, and otherwise (the
date was Feb 29 and the target year is not a leap year) rolls over to
Mar 1. -/
lemma setFullYearMinus10_spec (d : CalDate) (hv : validDate d = true) :
    (validDate (minus10Years d) = true → setFullYearMinus10 d = minus10Years d) ∧
    (validDate (minus10Years d) = false → setFullYearMinus10 d = ⟨d.year - 10, 3, 1⟩) := by
  obtain ⟨y, m, day⟩ := d
  simp only [validDate, Bool.and_eq_true, decide_eq_true_eq] at hv
  obtain ⟨⟨⟨h1m, h2m⟩, h1d⟩, h2d⟩ := hv
  constructor
  · intro hvalid
    simp only [validDate, minus10Years, Bool.and_eq_true, decide_eq_true_eq] at hvalid
    have : day ≤ daysInMonth (y - 10) m := hvalid.2
    simp [setFullYearMinus10, minus10Years, this]
  · intro hinvalid
    have hday : ¬ day ≤ daysInMonth (y - 10) m := by
      intro hle
      rw [Bool.eq_false_iff] at hinvalid
      exact hinvalid (by simp [validDate, minus10Years, h1m, h2m, h1d, hle])
    by_cases hm2 : m = 2
    · subst hm2
      have h29 : daysInMonth y 2 = 29 ∨ daysInMonth y 2 = 28 := by
        by_cases h : isLeapYear y = true <;> simp [daysInMonth, h]
      have h28 : daysInMonth (y - 10) 2 = 29 ∨ daysInMonth (y - 10) 2 = 28 := by
        by_cases h : isLeapYear (y - 10) = true <;> simp [daysInMonth, h]
      have hd29 : day = 29 ∧ daysInMonth (y - 10) 2 = 28 := by omega
      simp [setFullYearMinus10, hday, hd29.1, hd29.2]
    · exfalso
      have : daysInMonth (y - 10) m = daysInMonth y m := by
        simp [daysInMonth, hm2]
      omega

/-! ## Claim theorems -/

/-- C3.  For every `SearchOptions`, the `limit` field of the payload
`searchContracts` sends to the search endpoint is
`min(requested limit, 100)`; in particular a requested limit of 500 is
sent as 100. -/
theorem c3_limit_clamped :
    (∀ o : SearchOptions, (searchPayload o).limit = min o.limit 100) ∧
    (∀ o : SearchOptions, o.limit = 500 → (searchPayload o).limit = 100) := by
  constructor
  · intro o; rfl
  · intro o h
    show min o.limit 100 = 100
    rw [h]
    decide

/-- Witness for C3: a caller-requested limit of 500. -/
theorem c3_witness : (searchPayload { limit := 500 }).limit = 100 :=
  c3_limit_clamped.2 { limit := 500 } rfl

/-- C4, counterexample.  The claim "the start date is exactly 10 years
before the end date (today)" fails when today is Feb 29 of a leap year
whose target year is not a leap year: for today = 2024-02-29 the
keyword search window starts at 2014-03-01, not at the (nonexistent)
date exactly ten years before. -/
theorem c4_counterexample :
    validDate ⟨2024, 2, 29⟩ = true ∧
    looksLikeAwardID "solar panels" = false ∧
    (searchHandlerParams "solar panels" ⟨2024, 2, 29⟩).endDate = some "2024-02-29" ∧
    (searchHandlerParams "solar panels" ⟨2024, 2, 29⟩).startDate = some "2014-03-01" ∧
    (searchHandlerParams "solar panels" ⟨2024, 2, 29⟩).startDate ≠
      some (formatISO (minus10Years ⟨2024, 2, 29⟩)) := by
  refine ⟨rfl, by decide, rfl, rfl, by decide⟩

/-- C4, amended.  For every non-empty input string and valid current
date: an input whose trim matches `^[A-Z0-9]{10,}$` (case-insensitive)
is searched with no start/end date; any other input is searched with the
window `[today shifted back 10 years, today]` in `YYYY-MM-DD` form,
where the shifted date is exactly ten calendar years before today
whenever that date exists, and otherwise (today is Feb 29 and the
target year is not a leap year) rolls over to Mar 1. -/
theorem c4_search_mode_and_date_window (keywords : String) (today : CalDate)
    (_hk : keywords ≠ "") (hv : validDate today = true) :
    (looksLikeAwardID keywords = true →
      (searchHandlerParams keywords today).startDate = none ∧
      (searchHandlerParams keywords today).endDate = none) ∧
    (looksLikeAwardID keywords = false →
      (searchHandlerParams keywords today).startDate =
        some (formatISO (setFullYearMinus10 today)) ∧
      (searchHandlerParams keywords today).endDate = some (formatISO today) ∧
      (validDate (minus10Years today) = true →
        setFullYearMinus10 today = minus10Years today) ∧
      (validDate (minus10Years today) = false →
        setFullYearMinus10 today = ⟨today.year - 10, 3, 1⟩)) := by
  constructor
  · intro h
    simp [searchHandlerParams, h]
  · intro h
    refine ⟨?_, ?_, (setFullYearMinus10_spec today hv).1, (setFullYearMinus10_spec today hv).2⟩
    · simp [searchHandlerParams, h, getDefaultDates]
    · simp [searchHandlerParams, h, getDefaultDates]

/-- Witness for C4 at concrete inputs: an award-id-shaped input, and a
keyword input on 2025-10-11. -/
theorem c4_witness :
    (searchHandlerParams "36C10B22N10280026" ⟨2025, 10, 11⟩).startDate = none ∧
    (searchHandlerParams "ai consulting" ⟨2025, 10, 11⟩).startDate = some "2015-10-11" ∧
    (searchHandlerParams "ai consulting" ⟨2025, 10, 11⟩).endDate = some "2025-10-11" := by
  have h1 := (c4_search_mode_and_date_window "36C10B22N10280026" ⟨2025, 10, 11⟩
    (by decide) (by decide)).1 (by decide)
  have h2 := (c4_search_mode_and_date_window "ai consulting" ⟨2025, 10, 11⟩
    (by decide) (by decide)).2 (by decide)
  exact ⟨h1.1, by rw [h2.1]; decide, h2.2.1⟩

/-- C5, counterexample.  The claim says the `keywords` key is present
iff the option was supplied, but a supplied empty string (falsy in
JavaScript) is skipped by `if (keywords)`: the option is supplied yet
the key is omitted. -/
theorem c5_counterexample :
    (({ keywords := some "" } : SearchOptions)).keywords.isSome = true ∧
    (buildFilters { keywords := some "" }).keywords = none :=
  ⟨rfl, rfl⟩

/-- C5, amended.  The filter object always contains the fixed
award-type code set `{A,B,C,D}` and one `time_period` entry; each of
the six optional keys is present iff the corresponding option is
supplied with a truthy value (non-empty for the string-valued options,
non-empty for the list-valued options; an amount object is always
truthy); and a present key never holds an empty list. -/
theorem c5_filter_keys (o : SearchOptions) :
    (buildFilters o).award_type_codes = ["A", "B", "C", "D"] ∧
    (buildFilters o).time_period = [⟨o.startDate, o.endDate⟩] ∧
    (buildFilters o).keywords.isSome = truthyOptStr o.keywords ∧
    (buildFilters o).award_amounts.isSome = o.awardAmounts.isSome ∧
    (buildFilters o).recipient_search_text.isSome = truthyOptStr o.recipientSearchText ∧
    (buildFilters o).agencies.isSome = truthyOptList o.agencies ∧
    (buildFilters o).naics_codes.isSome = truthyOptList o.naicsCodes ∧
    (buildFilters o).psc_codes.isSome = truthyOptList o.pscCodes ∧
    (∀ l, (buildFilters o).keywords = some l → l ≠ []) ∧
    (∀ l, (buildFilters o).award_amounts = some l → l ≠ []) ∧
    (∀ l, (buildFilters o).recipient_search_text = some l → l ≠ []) ∧
    (∀ l, (buildFilters o).agencies = some l → l ≠ []) ∧
    (∀ l, (buildFilters o).naics_codes = some l → l ≠ []) ∧
    (∀ l, (buildFilters o).psc_codes = some l → l ≠ []) := by
  refine ⟨rfl, rfl, ?_, ?_, ?_, ?_, ?_, ?_, ?_, ?_, ?_, ?_, ?_, ?_⟩
  · cases hk : o.keywords with
    | none => simp [buildFilters, hk, truthyOptStr]
    | some k => by_cases h : k = "" <;> simp [buildFilters, hk, truthyOptStr, h]
  · cases ha : o.awardAmounts <;> simp [buildFilters, ha]
  · cases hr : o.recipientSearchText with
    | none => simp [buildFilters, hr, truthyOptStr]
    | some r => by_cases h : r = "" <;> simp [buildFilters, hr, truthyOptStr, h]
  · cases hg : o.agencies with
    | none => simp [buildFilters, hg, truthyOptList]
    | some l => cases l <;> simp [buildFilters, hg, truthyOptList]
  · cases hn : o.naicsCodes with
    | none => simp [buildFilters, hn, truthyOptList]
    | some l => cases l <;> simp [buildFilters, hn, truthyOptList]
  · cases hp : o.pscCodes with
    | none => simp [buildFilters, hp, truthyOptList]
    | some l => cases l <;> simp [buildFilters, hp, truthyOptList]
  · intro l hl
    cases hk : o.keywords with
    | none => simp [buildFilters, hk] at hl
    | some k =>
        by_cases h : k = ""
        · simp [buildFilters, hk, h] at hl
        · simp [buildFilters, hk, h] at hl
          simp [← hl]
  · intro l hl
    cases ha : o.awardAmounts with
    | none => simp [buildFilters, ha] at hl
    | some a =>
        simp [buildFilters, ha] at hl
        simp [← hl]
  · intro l hl
    cases hr : o.recipientSearchText with
    | none => simp [buildFilters, hr] at hl
    | some r =>
        by_cases h : r = ""
        · simp [buildFilters, hr, h] at hl
        · simp [buildFilters, hr, h] at hl
          simp [← hl]
  · intro l hl
    cases hg : o.agencies with
    | none => simp [buildFilters, hg] at hl
    | some l0 =>
        cases l0 with
        | nil => simp [buildFilters, hg] at hl
        | cons a rest =>
            simp [buildFilters, hg] at hl
            simp [← hl]
  · intro l hl
    cases hn : o.naicsCodes with
    | none => simp [buildFilters, hn] at hl
    | some l0 =>
        cases l0 with
        | nil => simp [buildFilters, hn] at hl
        | cons a rest =>
            simp [buildFilters, hn] at hl
            simp [← hl]
  · intro l hl
    cases hp : o.pscCodes with
    | none => simp [buildFilters, hp] at hl
    | some l0 =>
        cases l0 with
        | nil => simp [buildFilters, hp] at hl
        | cons a rest =>
            simp [buildFilters, hp] at hl
            simp [← hl]

/-- Witness for C5 at a concrete options object: a supplied keyword
makes the key present with a non-empty value; an empty agencies list is
omitted. -/
theorem c5_witness :
    (buildFilters { keywords := some "cyber", agencies := some [] }).keywords.isSome =
      truthyOptStr (some "cyber") ∧
    (buildFilters { keywords := some "cyber", agencies := some [] }).agencies.isSome =
      truthyOptList (some ([] : List String)) ∧
    ["cyber"] ≠ ([] : List String) := by
  refine ⟨(c5_filter_keys { keywords := some "cyber", agencies := some [] }).2.2.1,
    (c5_filter_keys { keywords := some "cyber", agencies := some [] }).2.2.2.2.2.1, ?_⟩
  exact (c5_filter_keys { keywords := some "cyber", agencies := some [] }).2.2.2.2.2.2.2.2.1
    ["cyber"] (by decide)

/-- C1.  For every call to `_makeRequest`, if an attempt's error carries
an HTTP response status in the 400–499 range, the call fails immediately
with the client-error message and performs no further attempt: the
result holds for every behaviour of the transport after that attempt,
and the recorded backoff delays are exactly those of the earlier
attempts (none is added for the 4xx attempt).  In particular
`getAwardDetails` given an external 404 response fails on the first
attempt with no retry and no delay. -/
theorem c1_client_error_fails_immediately {α : Type} :
    (∀ (n k s : Nat) (outs : Nat → AttemptOutcome α) (d : Option String) (m : String),
       (∀ j, j < k → isRetryB (outs j) = true) → k < n →
       outs k = .httpError s d m → 400 ≤ s → s < 500 →
       makeRequest n outs =
         (.error ("API client error (" ++ toString s ++ "): " ++
           jsOr (d.getD "") (jsOr m "Unknown error")), backoffs k)) ∧
    (∀ (n : Nat) (awardId : String) (outs : Nat → AttemptOutcome α)
       (d : Option String) (m : String),
       0 < n → outs 0 = .httpError 404 d m →
       (getAwardDetailsRequest n awardId outs).2 =
         (.error ("API client error (404): " ++ jsOr (d.getD "") (jsOr m "Unknown error")),
          [])) := by
  constructor
  · intro n k s outs d m hretry hk hout h4 h5
    exact makeRequest_clientError n k s outs d m hretry hk hout h4 h5
  · intro n awardId outs d m hn hout
    have h := makeRequest_clientError n 0 404 outs d m
      (fun j hj => absurd hj (Nat.not_lt_zero j)) hn hout (by omega) (by omega)
    simpa [getAwardDetailsRequest, backoffs] using h

/-- Witness for C1 at concrete inputs: budget 3, a transport answering
404 on every attempt; and `getAwardDetails` against the same
transport. -/
theorem c1_witness :
    makeRequest 3 (fun _ => AttemptOutcome.httpError (α := Nat) 404 none "Request failed with status code 404") =
      (.error "API client error (404): Request failed with status code 404", []) ∧
    (getAwardDetailsRequest 3 "CONT-AWD/1" (fun _ => AttemptOutcome.httpError (α := Nat) 404 (some "Not found") "boom")).2 =
      (.error "API client error (404): Not found", []) := by
  constructor
  · have h := (c1_client_error_fails_immediately (α := Nat)).1 3 0 404
      (fun _ => AttemptOutcome.httpError 404 none "Request failed with status code 404")
      none "Request failed with status code 404"
      (fun j hj => absurd hj (Nat.not_lt_zero j)) (by omega) rfl (by omega) (by omega)
    simpa [backoffs, jsOr] using h
  · have h := (c1_client_error_fails_immediately (α := Nat)).2 3 "CONT-AWD/1"
      (fun _ => AttemptOutcome.httpError 404 (some "Not found") "boom")
      (some "Not found") "boom" (by omega) rfl
    simpa [jsOr] using h

/-- C2.  For every call to `_makeRequest` with attempt budget `n`: after
a non-4xx failure at 0-indexed attempt `k < n-1` the client sleeps
exactly `2^k * 1000` ms before the next attempt (the delay list starts
`2^0*1000, …, 2^k*1000`); if attempts 1 and 2 fail with 503 and attempt
3 succeeds, the call returns the successful body after exactly the two
backoff delays 1000 ms and 2000 ms; and if all `n` attempts fail
retryably, the call fails with the aggregate error naming the attempt
count and the last underlying error message. -/
theorem c2_backoff_and_exhaustion {α : Type} :
    (∀ (n k : Nat) (outs : Nat → AttemptOutcome α),
       (∀ j, j ≤ k → isRetryB (outs j) = true) → k + 1 < n →
       ∃ rest, (makeRequest n outs).2 = backoffs (k + 1) ++ rest) ∧
    (∀ (outs : Nat → AttemptOutcome α) (d0 d1 : Option String) (m0 m1 : String) (body : α),
       outs 0 = .httpError 503 d0 m0 → outs 1 = .httpError 503 d1 m1 →
       outs 2 = .success (some body) →
       makeRequest 3 outs = (.ok body, [1000, 2000])) ∧
    (∀ (n : Nat) (outs : Nat → AttemptOutcome α), 0 < n →
       (∀ j, j < n → isRetryB (outs j) = true) →
       makeRequest n outs =
         (.error ("API request failed after " ++ toString n ++ " attempts: " ++
           errMsgOf (outs (n - 1))), backoffs (n - 1))) := by
  refine ⟨?_, ?_, ?_⟩
  · intro n k outs hretry hk
    exact makeRequest_delays n k outs hretry hk
  · intro outs d0 d1 m0 m1 body h0 h1 h2
    have hns : ¬ (400 ≤ 503 ∧ 503 < 500) := by omega
    have hc0 : classify (outs 0) = .retry (jsOr (d0.getD "") (jsOr m0 "Unknown error")) := by
      rw [h0]; simp [classify, hns]
    have hc1 : classify (outs 1) = .retry (jsOr (d1.getD "") (jsOr m1 "Unknown error")) := by
      rw [h1]; simp [classify, hns]
    have hc2 : classify (outs 2) = .ok body := by rw [h2]; rfl
    have s0 := makeRequestAux_retry_step 3 outs 0 _ (by omega) (by omega) hc0
    have s1 := makeRequestAux_retry_step 3 outs 1 _ (by omega) (by omega) hc1
    have s2 := makeRequestAux_ok 3 outs 2 body (by omega) hc2
    rw [makeRequest, s0, s1, s2]
    norm_num
  · intro n outs hn hretry
    exact makeRequest_exhausted n outs hn hretry

/-- Witness for C2 at concrete inputs: a 500-then-success transport for
the delay schedule, the 503/503/200 scenario, and three straight 500s
for exhaustion. -/
theorem c2_witness :
    (∃ rest, (makeRequest 3 (fun k => if k < 2 then AttemptOutcome.httpError (α := Nat) 500 none "err" else .success (some 7))).2 =
      backoffs 2 ++ rest) ∧
    makeRequest 3 (fun k => if k < 2 then AttemptOutcome.httpError (α := Nat) 503 none "Service Unavailable" else .success (some 7)) =
      (.ok 7, [1000, 2000]) ∧
    makeRequest 3 (fun _ => AttemptOutcome.httpError (α := Nat) 500 (some "Internal error") "boom") =
      (.error "API request failed after 3 attempts: Internal error", [1000, 2000]) := by
  refine ⟨?_, ?_, ?_⟩
  · exact (c2_backoff_and_exhaustion (α := Nat)).1 3 1
      (fun k => if k < 2 then AttemptOutcome.httpError 500 none "err" else .success (some 7))
      (by decide) (by omega)
  · exact (c2_backoff_and_exhaustion (α := Nat)).2.1
      (fun k => if k < 2 then AttemptOutcome.httpError 503 none "Service Unavailable" else .success (some 7))
      none none "Service Unavailable" "Service Unavailable" 7 rfl rfl rfl
  · have h := (c2_backoff_and_exhaustion (α := Nat)).2.2 3
      (fun _ => AttemptOutcome.httpError 500 (some "Internal error") "boom") (by omega) (by decide)
    simpa [backoffs, errMsgOf, jsOr] using h

/-- C6.  A transport-level success with no response body is a failed
attempt that counts toward the retry budget: it is never classified as
a terminal 4xx client error, it is classified as a retryable failure
with the invalid-response message, after it (budget permitting) the
usual backoff is slept, and a budget exhausted entirely by empty-body
responses yields the aggregate failure. -/
theorem c6_empty_body_retryable {α : Type} :
    (∀ (s : Nat) (msg : String),
       classify (AttemptOutcome.success (α := α) none) ≠ .terminal s msg) ∧
    (classify (AttemptOutcome.success (α := α) none) = .retry "Invalid response from API") ∧
    (∀ (n k : Nat) (outs : Nat → AttemptOutcome α),
       (∀ j, j < k → isRetryB (outs j) = true) → outs k = .success none → k + 1 < n →
       ∃ rest, (makeRequest n outs).2 = backoffs (k + 1) ++ rest) ∧
    (∀ n : Nat, 0 < n →
       makeRequest n (fun _ => AttemptOutcome.success (α := α) none) =
         (.error ("API request failed after " ++ toString n ++ " attempts: Invalid response from API"),
          backoffs (n - 1))) := by
  refine ⟨?_, rfl, ?_, ?_⟩
  · intro s msg h
    simp [classify] at h
  · intro n k outs hretry hout hk
    refine makeRequest_delays n k outs ?_ hk
    intro j hj
    rcases Nat.lt_or_ge j k with hlt | hge
    · exact hretry j hlt
    · have : j = k := by omega
      rw [this, hout]; rfl
  · intro n hn
    have h := makeRequest_exhausted n (fun _ => AttemptOutcome.success (α := α) none) hn
      (fun j _ => rfl)
    have h2 : (" attempts: " : String) ++ "Invalid response from API" =
        " attempts: Invalid response from API" := rfl
    simpa [errMsgOf, String.append_assoc, h2] using h

/-- Witness for C6 at concrete inputs: an all-empty-body transport with
budget 3, and an empty body on attempt 0 only. -/
theorem c6_witness :
    (∀ (s : Nat) (msg : String),
       classify (AttemptOutcome.success (α := Nat) none) ≠ .terminal s msg) ∧
    (∃ rest, (makeRequest 3 (fun k => if k = 0 then AttemptOutcome.success (α := Nat) none else .success (some 1))).2 =
      backoffs 1 ++ rest) ∧
    makeRequest 3 (fun _ => AttemptOutcome.success (α := Nat) none) =
      (.error "API request failed after 3 attempts: Invalid response from API", [1000, 2000]) := by
  refine ⟨(c6_empty_body_retryable (α := Nat)).1, ?_, ?_⟩
  · exact (c6_empty_body_retryable (α := Nat)).2.2.1 3 0
      (fun k => if k = 0 then AttemptOutcome.success none else .success (some 1))
      (fun j hj => absurd hj (Nat.not_lt_zero j)) rfl (by omega)
  · have h := (c6_empty_body_retryable (α := Nat)).2.2.2 3 (by omega)
    simpa [backoffs] using h

/-- C7, counterexample.  The temporary content PDF is not deleted on
every failure path: if loading the content PDF for the merge fails, the
handler answers 500 and the temporary file is still on disk (the only
`unlinkSync` sits after `save`, and the `catch` block does not remove
the file). -/
theorem c7_counterexample :
    coverPdfHandler (some "https://www.usaspending.gov/award/X") (some .loadContentPdf) =
      (500, true) := by
  decide

/-- C7, amended.  For both cover-page PDF endpoints: the temporary
content PDF is deleted on the success path; if content generation
itself fails no temporary path is obtained; but on a failure of any
later cover/merge step (read, load, either copy, save) the handler
answers 500 with the temporary file still on disk — cleanup is
on-success-only, not finally-equivalent. -/
theorem c7_temp_cleanup_success_only (url : String) (hu : url ≠ "") :
    coverPdfHandler (some url) none = (200, false) ∧
    coverPdfHandler (some url) (some .generateContent) = (500, false) ∧
    (∀ s : MergeStep, s ≠ .generateContent →
      coverPdfHandler (some url) (some s) = (500, true)) := by
  refine ⟨?_, ?_, ?_⟩
  · simp [coverPdfHandler, truthyOptStr, hu, coverMergeRun, stepOk]
  · simp [coverPdfHandler, truthyOptStr, hu, coverMergeRun, stepOk]
  · intro s hs
    cases s <;> simp_all [coverPdfHandler, truthyOptStr, hu, coverMergeRun, stepOk]

/-- Witness for C7 at a concrete URL: success path deletes the file,
a failing merge save leaves it behind. -/
theorem c7_witness :
    coverPdfHandler (some "https://www.fpds.gov/ezsearch") none = (200, false) ∧
    coverPdfHandler (some "https://www.fpds.gov/ezsearch") (some .saveMergedPdf) =
      (500, true) := by
  have h := c7_temp_cleanup_success_only "https://www.fpds.gov/ezsearch" (by decide)
  exact ⟨h.1, h.2.2 .saveMergedPdf (by decide)⟩

/-- C8, counterexample.  Two divergences from the claim on one input.
A standard multi-column separator row `|---|---|` does NOT match the
code's `/^\|[\s:-]+\|$/` (the character class has no `|`), so it is kept
as a data row: the emitted table has 3 rows while the input minus its
separator rows (in the claim's sense) has 2.  And a row with a blank
cell, `| c |  | d |`, is emitted with 2 cells although the input row has
3 cells, because `.filter(c => c.trim())` drops blank cells. -/
theorem c8_counterexample :
    (wordTables (["| a | b |", "|---|---|", "| c |  | d |"].map String.data)).flatten.length = 3 ∧
    (((["| a | b |", "|---|---|", "| c |  | d |"].map String.data).map trimChars).filter
      (fun t => isSpecSeparatorRow t = false)).length = 2 ∧
    (splitCells (trimChars "| c |  | d |".data)).length = 2 ∧
    (interiorCells (trimChars "| c |  | d |".data)).length = 3 := by
  refine ⟨?_, ?_, ?_, ?_⟩ <;> decide

/-- C8, amended.  For content consisting solely of table rows, the
emitted table has one row per input row that does not match the code's
separator pattern `/^\|[\s:-]+\|$/` (single-cell separators such as
`| --- |`; multi-cell separators such as `|---|---|` are kept as data
rows), and each emitted row holds the trimmed non-blank cells of the
input row — its cell count is the number of interior cells with
non-whitespace content. -/
theorem c8_table_scanner (lines : List (List Char))
    (h : ∀ l ∈ lines, isTableLine (trimChars l) = true) :
    (wordTables lines =
      (if ((lines.map trimChars).filter (fun t => !isSepRow t)).map splitCells = []
       then []
       else [((lines.map trimChars).filter (fun t => !isSepRow t)).map splitCells])) ∧
    (∀ l ∈ lines,
      splitCells (trimChars l) =
        ((interiorCells (trimChars l)).filter (fun c => trimChars c ≠ [])).map trimChars) := by
  refine ⟨wordTables_all_table lines h, ?_⟩
  intro l hl
  exact splitCells_eq_interior _ (h l hl)

/-- Witness for C8 on a concrete table: a data row, a single-cell
separator (dropped), and another data row. -/
theorem c8_witness :
    (∀ l ∈ ["| a | b |", "| --- |", "| x |"].map String.data,
      isTableLine (trimChars l) = true) ∧
    wordTables (["| a | b |", "| --- |", "| x |"].map String.data) =
      [[[['a'], ['b']], [['x']]]] := by
  refine ⟨by decide, ?_⟩
  rw [(c8_table_scanner (["| a | b |", "| --- |", "| x |"].map String.data) (by decide)).1]
  decide

/-- C9.  A `POST /api/generate-word-doc` body with non-empty `content`
and `title` but no `companyName` passes the input validation (which
checks only `content` and `title`), then fails building the download
filename on `companyName.replace` — the response is a 500, not a 400
client error. -/
theorem c9_missing_company_name_500 (content title : String) (now : Nat)
    (hc : content ≠ "") (ht : title ≠ "") :
    wordDocHandlerStatus (some content) (some title) none now = 500 ∧
    wordDocHandlerStatus (some content) (some title) none now ≠ 400 := by
  have h : wordDocHandlerStatus (some content) (some title) none now = 500 := by
    simp [wordDocHandlerStatus, truthyOptStr, hc, ht, buildWordDocFilename]
  exact ⟨h, by rw [h]; omega⟩

/-- Witness for C9 at a concrete request body. -/
theorem c9_witness :
    wordDocHandlerStatus (some "analysis text") (some "Contractor Analysis") none 0 = 500 ∧
    wordDocHandlerStatus (some "analysis text") (some "Contractor Analysis") none 0 ≠ 400 :=
  c9_missing_company_name_500 "analysis text" "Contractor Analysis" 0
    (by decide) (by decide)

/-- C10, counterexample.  `!` is a URL-reserved character (an RFC 3986
sub-delim), yet `encodeURIComponent` leaves it unchanged, so for the id
`"!"` the encoded and raw paths coincide — refuting "for every id
containing a URL-reserved character they request different paths". -/
theorem c10_counterexample :
    ('!' ∈ "!".data ∧ isRfc3986Reserved '!' = true) ∧
    getAwardDetailsEndpoint "!" = getContractDetailsEndpoint "!" := by
  refine ⟨⟨by decide, by decide⟩, by decide⟩

/-- C10, amended.  The two operations request the same path exactly
when the id contains no character changed by `encodeURIComponent`
(every character in the unescaped set `A–Z a–z 0–9 - _ . ! ~ * ' ( )`);
for every id containing a character that percent-encoding does change —
such as `/` or `?` — the paths differ. -/
theorem c10_endpoint_agreement (awardId : String) :
    (getAwardDetailsEndpoint awardId = getContractDetailsEndpoint awardId ↔
      ∀ c ∈ awardId.data, encodeChar c = [c]) ∧
    ((∃ c ∈ awardId.data, isUnescapedURIChar c = false) →
      getAwardDetailsEndpoint awardId ≠ getContractDetailsEndpoint awardId) := by
  have hiff : getAwardDetailsEndpoint awardId = getContractDetailsEndpoint awardId ↔
      encodeChars awardId.data = awardId.data := by
    constructor
    · intro h
      have hd := congrArg String.data h
      simp only [getAwardDetailsEndpoint, getContractDetailsEndpoint,
        String.data_append] at hd
      have h1 := List.append_cancel_right hd
      have h2 := List.append_cancel_left h1
      simpa [encodeURIComponent] using h2
    · intro h
      have : encodeURIComponent awardId = awardId := String.ext h
      rw [getAwardDetailsEndpoint, getContractDetailsEndpoint, this]
  constructor
  · rw [hiff]
    exact encodeChars_eq_self_iff awardId.data
  · rintro ⟨c, hc, hesc⟩ heq
    have hall := (encodeChars_eq_self_iff awardId.data).mp (hiff.mp heq)
    have h1 : encodeChar c = [c] := hall c hc
    have h3 := encodeChar_of_escaped_length c hesc
    rw [h1] at h3
    simp at h3

/-- Witness for C10: an id containing `/` (escaped by
`encodeURIComponent`) yields different paths, and a plain alphanumeric
id yields equal paths. -/
theorem c10_witness :
    ((∃ c ∈ "A/B".data, isUnescapedURIChar c = false) ∧
      getAwardDetailsEndpoint "A/B" ≠ getContractDetailsEndpoint "A/B") ∧
    getAwardDetailsEndpoint "CONT123" = getContractDetailsEndpoint "CONT123" := by
  refine ⟨⟨⟨'/', by decide, by decide⟩, ?_⟩, ?_⟩
  · exact (c10_endpoint_agreement "A/B").2 ⟨'/', by decide, by decide⟩
  · exact (c10_endpoint_agreement "CONT123").1.mpr (by decide)

end Acquisight
